import Mathlib

/-!
Verification development for the WeatherChart ETL pipeline.

The definitions below are a shallow embedding of the name-resolution,
sign-correction, genre-extraction and join logic found in the scripts
under `src/scripts/`.  Python strings are Lean `String`, Python dicts
are association lists where the entry added last wins, pandas merges
are modelled as list operations, and numeric cell values are modelled
as rationals (the operations used on them — comparison with zero,
negation, absolute value — are exact on floating point numbers).
-/

namespace WeatherChart

/-! ### Python string primitives (used by every join script) -/

/-- Characters of a string lowercased, as in the Python method `lower`
(ASCII range; the country and artist tables are ASCII). -/
def lowerChars (cs : List Char) : List Char := cs.map Char.toLower

/-- Leading and trailing whitespace removed, as in the Python method `strip`. -/
def stripChars (cs : List Char) : List Char :=
  ((cs.dropWhile Char.isWhitespace).reverse.dropWhile Char.isWhitespace).reverse

/-- Python `s.lower()`. -/
def pyLower (s : String) : String := String.mk (lowerChars s.toList)

/-- Python `s.strip()`. -/
def pyStrip (s : String) : String := String.mk (stripChars s.toList)

/-- Embeds `normalize_name` of `6-join_climate.py`, `8-join_economy.py` and
`10-join_latitude.py`, and the inline `name.lower().strip()` normalization of
`3-join_datasets.py`: lowercase, then trim surrounding whitespace. -/
def normalize_name (s : String) : String := pyStrip (pyLower s)

/-! ### Python dict as an association list (later insertions overwrite) -/

/-- Lookup in a Python dict built by inserting the pairs of `m` in order:
the entry inserted last for a key wins, hence the search over `m.reverse`. -/
def dictGet (m : List (String × String)) (k : String) : Option String :=
  (m.reverse.find? (fun p => p.1 == k)).map (fun p => p.2)

/-- Embeds the dict comprehensions of the join scripts, e.g.
`{normalize_name(c): c for c in df_climate[,country,].unique()}`:
each canonical name keyed by its normalized form. -/
def buildNormMap (names : List String) : List (String × String) :=
  names.map (fun n => (normalize_name n, n))

/-! ### Stage 3 (`3-join_datasets.py`): artist resolution -/

/-- Literal alternatives of the split regular expression
`\s*(?:,|;| vs\.? | feat\.? | ft\.? |&| with )\s*` of `3-join_datasets.py`,
applied to an already lowercased string (the IGNORECASE flag is therefore
immaterial).  The leading `\s*` of the pattern only widens a match across
whitespace that the subsequent `.strip()` of the first segment removes, so
the first segment is determined by the earliest position at which one of
these alternatives matches. -/
def splitSeparators : List String :=
  [",", ";", " vs ", " vs. ", " feat ", " feat. ", " ft ", " ft. ", "&", " with "]

/-- Does one of the separator alternatives match at the head of `cs`? -/
def sepMatchAt (cs : List Char) : Bool :=
  splitSeparators.any (fun sep => sep.toList.isPrefixOf cs)

/-- Characters before the first separator match. -/
def firstSegmentChars : List Char → List Char
  | [] => []
  | c :: rest => if sepMatchAt (c :: rest) then [] else c :: firstSegmentChars rest

/-- Embeds `split_pattern.split(normalized_artist)[0].strip()` of
`3-join_datasets.py` (Strategy 2): the text before the first separator,
trimmed. -/
def primarySegment (s : String) : String :=
  pyStrip (String.mk (firstSegmentChars s.toList))

/-- Embeds the `artist_mapping` loop of `3-join_datasets.py` for a string
raw artist: Strategy 1 is exact lookup of the normalized name in
`genre_artist_map`; Strategy 2 retries with the first segment of the split;
otherwise the artist maps to `None`. -/
def artist_mapping (genreArtists : List String) (rawArtist : String) : Option String :=
  let m := buildNormMap genreArtists
  let norm := normalize_name rawArtist
  match dictGet m norm with
  | some c => some c
  | none => dictGet m (primarySegment norm)

/-! ### Stage 6 (`6-join_climate.py`): region resolution against climate data -/

/-- Manual override dict of `6-join_climate.py`. -/
def overrides_climate : List (String × String) :=
  [("usa", "United States"), ("uk", "United Kingdom"),
   ("uae", "United Arab Emirates"), ("korea", "South Korea"),
   ("vietnam", "Vietnam")]

/-- Embeds the `region_join_map` loop of `6-join_climate.py`.  The loop body
tries the override dict FIRST: when the normalized region is an override key
and the override target (lowercased) is in the climate map, the target is
renormalized and, when found, the loop continues with that value.  Only when
the override path did not `continue` is the exact normalized match tried;
an intermediate assignment of the raw override target is always overwritten
by the following if/else and never survives. -/
def region_join_map (climateCountries : List String) (region : String) : Option String :=
  let cmap := buildNormMap climateCountries
  let norm := normalize_name region
  let overridePath : Option String :=
    match dictGet overrides_climate norm with
    | some target =>
      if (dictGet cmap (pyLower target)).isSome then
        dictGet cmap (normalize_name target)
      else none
    | none => none
  match overridePath with
  | some c => some c
  | none => dictGet cmap norm

/-! ### Stage 8 (`8-join_economy.py`): region resolution against economy data -/

/-- Embeds the `region_map` loop of `8-join_economy.py`: exact normalized
lookup only. -/
def region_map_economy (economyCountries : List String) (region : String) : Option String :=
  dictGet (buildNormMap economyCountries) (normalize_name region)

/-! ### Stage 10 (`10-join_latitude.py`): region resolution against geography -/

/-- Manual override dict of `10-join_latitude.py`. -/
def overrides_latitude : List (String × String) :=
  [("usa", "United States"), ("uk", "United Kingdom"),
   ("uae", "United Arab Emirates"), ("korea", "South Korea"),
   ("vietnam", "Vietnam"), ("russia", "Russian Federation"),
   ("iran", "Iran (Islamic Republic of)"),
   ("bolivia", "Bolivia (Plurinational State of)"),
   ("venezuela", "Venezuela (Bolivarian Republic of)"),
   ("ireland", "Republic of Ireland")]

/-- Embeds the `region_map` loop of `10-join_latitude.py`: exact normalized
match first; only on failure the override dict, whose target is renormalized
and looked up; otherwise `None`. -/
def region_map_latitude (latCountries : List String) (region : String) : Option String :=
  let m := buildNormMap latCountries
  let norm := normalize_name region
  match dictGet m norm with
  | some c => some c
  | none =>
    match dictGet overrides_latitude norm with
    | some target => dictGet m (normalize_name target)
    | none => none

/-! ### Stage 9 (`9-process_latitude.py`): hemisphere sign correction -/

/-- Row of the geographic profile produced by `9-process_latitude.py`
(after column selection and renaming).  Coordinates and rates are modelled
as rationals; the operations the script applies to them (comparison with
zero, negation, absolute value) are exact on floats. -/
structure GeoRow where
  country : String
  latitude : ℚ
  longitude : ℚ
  tertiary_enrollment : ℚ
  unemployment_rate : ℚ
deriving DecidableEq, Repr

/-- Countries forced to negative latitude in `9-process_latitude.py`. -/
def SOUTH_HEMISPHERE : List String :=
  ["Argentina", "Australia", "Bolivia", "Botswana", "Brazil", "Burundi",
   "Chile", "Comoros", "DR Congo", "Democratic Republic of the Congo",
   "Ecuador", "East Timor", "Eswatini", "Fiji", "Indonesia",
   "Kenya", "Lesotho", "Madagascar", "Malawi", "Mauritius", "Mozambique",
   "Namibia", "Nauru", "New Zealand", "Papua New Guinea", "Paraguay",
   "Peru", "Rwanda", "Samoa", "Solomon Islands", "South Africa",
   "Tanzania", "Tonga", "Tuvalu", "Uganda", "Uruguay", "Vanuatu",
   "Zambia", "Zimbabwe"]

/-- Countries forced to negative longitude in `9-process_latitude.py`. -/
def WEST_HEMISPHERE : List String :=
  ["Antigua and Barbuda", "Argentina", "Aruba", "Bahamas", "The Bahamas",
   "Barbados", "Belize", "Bolivia", "Brazil", "Canada", "Chile",
   "Colombia", "Costa Rica", "Cuba", "Curaçao", "Dominica",
   "Dominican Republic", "Ecuador", "El Salvador", "Grenada",
   "Guatemala", "Guyana", "Haiti", "Honduras", "Iceland", "Ireland",
   "Jamaica", "Mexico", "Nicaragua", "Panama", "Paraguay", "Peru",
   "Portugal", "Puerto Rico", "Saint Kitts and Nevis", "Saint Lucia",
   "Saint Vincent and the Grenadines", "Spain", "Suriname",
   "Trinidad and Tobago", "United Kingdom", "United States", "Uruguay",
   "Venezuela"]

/-- First guarded fix of the loop body of `9-process_latitude.py`:
`if country in SOUTH_HEMISPHERE and row[,latitude,] > 0:` then the stored
latitude becomes `-abs(latitude)`. -/
def applySouthFix (r : GeoRow) : GeoRow :=
  if pyStrip r.country ∈ SOUTH_HEMISPHERE ∧ 0 < r.latitude then
    { r with latitude := -|r.latitude| }
  else r

/-- Second guarded fix of the loop body: western-hemisphere longitudes.
The guard and the written value read the longitude, which the south fix
never changes, so sequencing the two fixes is faithful to the source. -/
def applyWestFix (r : GeoRow) : GeoRow :=
  if pyStrip r.country ∈ WEST_HEMISPHERE ∧ 0 < r.longitude then
    { r with longitude := -|r.longitude| }
  else r

/-- One pass of the hemisphere correction loop over a single row. -/
def correctRow (r : GeoRow) : GeoRow := applyWestFix (applySouthFix r)

/-- Manually recovered Hong Kong row of `9-process_latitude.py`
(`hk_data`), with the literal values of the source. -/
def hk_data : GeoRow :=
  { country := "Hong Kong", latitude := 22.3193, longitude := 114.1694,
    tertiary_enrollment := 84.8, unemployment_rate := 4.11 }

/-- Row-level model of `9-process_latitude.py` after column selection:
the correction loop runs over all input rows, then the Hong Kong row is
appended unconditionally by `pd.concat`. -/
def processLatitudeRows (rows : List GeoRow) : List GeoRow :=
  rows.map correctRow ++ [hk_data]

/-! ### Stage 13 (`13-preprocess.py`): genre extraction and rare-class filter -/

/-- Python literal values as returned by `ast.literal_eval`, restricted to
the shapes the genre column can hold. -/
inductive PyVal : Type where
  | str (s : String)
  | num (n : Int)
  | list (items : List PyVal)

/-- Embeds `extract_primary_genre` of `13-preprocess.py` over an abstract
model of `ast.literal_eval` (`none` models the ValueError/SyntaxError
branch).  A successful parse to a non-empty list yields its first element;
a successful parse to anything else yields the raw string unchanged; a
failed parse yields the raw string stripped. -/
def extract_primary_genre (literalEval : String → Option PyVal) (genre_str : String) : PyVal :=
  match literalEval genre_str with
  | some (PyVal.list (x :: _)) => x
  | some _ => PyVal.str genre_str
  | none => PyVal.str (pyStrip genre_str)

/-- Drop spaces, the only whitespace inside genre list literals. -/
def dropSpaces (cs : List Char) : List Char := cs.dropWhile (fun c => c = ' ')

/-- Parse one single-quoted Python string literal (no escapes, as in the
genre data). -/
def parseStrLit (cs : List Char) : Option (String × List Char) :=
  match cs with
  | '\'' :: rest =>
    let content := rest.takeWhile (fun c => c ≠ '\'')
    match rest.dropWhile (fun c => c ≠ '\'') with
    | '\'' :: rest2 => some (String.mk content, rest2)
    | _ => none
  | _ => none

/-- Parse the comma-separated items of a list literal up to the closing
bracket; the fuel argument bounds recursion by the input length. -/
def parseItems : Nat → List Char → Option (List PyVal)
  | 0, _ => none
  | Nat.succ fuel, cs =>
    match parseStrLit (dropSpaces cs) with
    | none => none
    | some (s, rest) =>
      match dropSpaces rest with
      | ',' :: more => (parseItems fuel more).map (fun items => PyVal.str s :: items)
      | [']'] => some [PyVal.str s]
      | _ => none

/-- Concrete executable instance of `ast.literal_eval` for the bracketed,
single-quoted list literals the genre column holds (e.g. the five-character
literal for pop inside brackets); everything else fails to parse. -/
def parseListLiteral (s : String) : Option PyVal :=
  match s.toList.dropWhile Char.isWhitespace with
  | '[' :: rest =>
    match dropSpaces rest with
    | [']'] => some (PyVal.list [])
    | _ => (parseItems (rest.length + 1) rest).map PyVal.list
  | _ => none

/-- Embeds `filter_rare_genres` of `13-preprocess.py` at row level: the
label column is the list, `value_counts` is `List.count`, and a row is kept
exactly when its label reaches `min_samples` occurrences. -/
def filter_rare_genres (labels : List String) (min_samples : Nat) : List String :=
  labels.filter (fun g => min_samples ≤ labels.count g)

/-- Embeds `valid_genres` of `filter_rare_genres`: the distinct labels whose
pre-filter frequency reaches the threshold. -/
def valid_genres (labels : List String) (min_samples : Nat) : List String :=
  labels.dedup.filter (fun g => min_samples ≤ labels.count g)

/-! ### Left joins and chunked streaming (stages 1, 3, 6, 8, 10) -/

/-- Embeds `pd.merge(chunk, table, on=key, how=left)`: every left row is
kept; a row whose key is null or unmatched is paired with `none` (all right
columns null); a row with matches is paired with each matching right row. -/
def leftJoin {α β : Type} (A : List α) (key : α → Option String) (B : List β)
    (bkey : β → String) : List (α × Option β) :=
  A.flatMap (fun a =>
    match key a with
    | none => [(a, none)]
    | some k =>
      match B.filter (fun b => bkey b == k) with
      | [] => [(a, none)]
      | b :: rest => (b :: rest).map (fun x => (a, some x)))

/-- Contents of an output CSV written chunk by chunk: the header, written
with the first chunk only, and the data rows of every processed chunk in
order (`mode=a` appends each later chunk). -/
def chunkedFile {ρ : Type} (header : List String) (processedChunks : List (List ρ)) :
    List String × List ρ :=
  (header, processedChunks.flatten)

/-- Contents of the same CSV written from a single whole-dataset pass. -/
def oneShotFile {ρ : Type} (header : List String) (rows : List ρ) :
    List String × List ρ :=
  (header, rows)

/-! ### Process exit behaviour on missing inputs (stages 3, 11, 13) -/

/-- Observable way a stage run ends before its main work. -/
inductive StageOutcome : Type where
  | cleanStop (diagnostic : String)
  | uncaught (exceptionName : String)
  | proceed
deriving DecidableEq, Repr

/-- Is the outcome a printed diagnostic with a conventional stop (an early
return or an explicit exit), as opposed to an exception reaching the shell? -/
def isConventionalStop : StageOutcome → Bool
  | StageOutcome.cleanStop _ => true
  | _ => false

/-- Embeds the input checks of `3-join_datasets.py` lines 10 to 14: a
missing input makes the script `raise FileNotFoundError(...)`, which no
handler catches, so the exception propagates to the shell. -/
def stage3Startup (regionsExists genresExists : Bool) : StageOutcome :=
  if !regionsExists then StageOutcome.uncaught "FileNotFoundError"
  else if !genresExists then StageOutcome.uncaught "FileNotFoundError"
  else StageOutcome.proceed

/-- Embeds the input check of `11-create_training_set.py` lines 8 to 10:
print a diagnostic and `exit(1)`. -/
def stage11Startup (inputExists : Bool) : StageOutcome :=
  if !inputExists then
    StageOutcome.cleanStop "Error: final_dataset_v4.csv not found. Ensure 10-join_latitude.py completed successfully."
  else StageOutcome.proceed

/-- Embeds the input check of `13-preprocess.py` lines 125 to 127: log an
error line and return from `main`. -/
def stage13Startup (inputExists : Bool) : StageOutcome :=
  if !inputExists then
    StageOutcome.cleanStop "ERROR: train_dataset.csv not found. Run 11-create_training_set.py first."
  else StageOutcome.proceed

/-- Embeds the broad `try/except` around the chunked loops (stages 1, 3, 6,
8, 10, 11): an exception raised by the body is caught and printed, ending
the stage conventionally. -/
def guardedChunkLoop {α : Type} (body : Except String α) : StageOutcome :=
  match body with
  | Except.ok _ => StageOutcome.proceed
  | Except.error e => StageOutcome.cleanStop e

/-! ### Helper lemmas about dict lookup -/

theorem dictGet_eq_some_mem {m : List (String × String)} {k c : String}
    (h : dictGet m k = some c) : ∃ p ∈ m, p.1 = k ∧ p.2 = c := by
  unfold dictGet at h
  cases hf : m.reverse.find? (fun p => p.1 == k) with
  | none => rw [hf] at h; simp at h
  | some p =>
    rw [hf] at h
    simp at h
    refine ⟨p, (List.mem_reverse).1 (List.mem_of_find?_eq_some hf), ?_, by simpa using h⟩
    have := List.find?_some hf
    simpa using this

theorem mem_buildNormMap {B : List String} {p : String × String}
    (h : p ∈ buildNormMap B) : p.2 ∈ B ∧ normalize_name p.2 = p.1 := by
  unfold buildNormMap at h
  obtain ⟨n, hn, rfl⟩ := List.mem_map.1 h
  exact ⟨hn, rfl⟩

theorem dictGet_buildNormMap_some {B : List String} {k c : String}
    (h : dictGet (buildNormMap B) k = some c) : c ∈ B ∧ normalize_name c = k := by
  obtain ⟨p, hp, hk, hc⟩ := dictGet_eq_some_mem h
  obtain ⟨hmem, hnorm⟩ := mem_buildNormMap hp
  exact ⟨hc ▸ hmem, by rw [← hc, hnorm, hk]⟩

theorem dictGet_buildNormMap_of_mem {B : List String} {k : String}
    (h : k ∈ B.map normalize_name) :
    ∃ c ∈ B, normalize_name c = k ∧ dictGet (buildNormMap B) k = some c := by
  cases hf : (buildNormMap B).reverse.find? (fun p => p.1 == k) with
  | none =>
    exfalso
    obtain ⟨n, hn, hnk⟩ := List.mem_map.1 h
    have hmem : ((normalize_name n, n) : String × String) ∈ (buildNormMap B).reverse := by
      rw [List.mem_reverse]
      exact List.mem_map.2 ⟨n, hn, rfl⟩
    have := List.find?_eq_none.1 hf _ hmem
    simp only [beq_iff_eq] at this
    exact this hnk
  | some p =>
    have hp : p ∈ buildNormMap B := (List.mem_reverse).1 (List.mem_of_find?_eq_some hf)
    have hk : p.1 = k := by
      have := List.find?_some hf
      simpa using this
    obtain ⟨hmem, hnorm⟩ := mem_buildNormMap hp
    refine ⟨p.2, hmem, by rw [hnorm, hk], ?_⟩
    unfold dictGet
    rw [hf]
    rfl

theorem overrides_climate_lower_eq :
    ∀ p ∈ overrides_climate, pyLower p.2 = normalize_name p.2 := by decide

/-! ### Claim C1 -/

/-- C1 counterexample: in the climate join of `6-join_climate.py`, with a
reference table containing both the canonical names Korea and South Korea,
the raw key Korea normalizes to the normalized form of the canonical name
Korea (the unique such canonical name), yet the resolution map assigns
South Korea, because the override dict is consulted before the exact match.
This refutes the claim that the mapping always assigns the canonical name
with the matching normalized form. -/
theorem C1_counterexample :
    normalize_name "Korea" ∈ (["Korea", "South Korea"].map normalize_name) ∧
    region_join_map ["Korea", "South Korea"] "Korea" = some "South Korea" ∧
    (∀ c ∈ ["Korea", "South Korea"],
      normalize_name c = normalize_name "Korea" → c = "Korea") ∧
    some "South Korea" ≠ some "Korea" := by decide

/-- C1 (amended): for every raw key whose normalized form equals the
normalized form of some canonical name in the reference table, the economy,
artist and latitude resolution maps assign a canonical name with exactly
that normalized form and never null; the climate map is also never null on
such keys, but (per the counterexample) may assign an override target
instead of the exact match. -/
theorem C1_exact_match_resolution (B : List String) (r : String)
    (hmem : normalize_name r ∈ B.map normalize_name) :
    (∃ c ∈ B, normalize_name c = normalize_name r ∧ region_map_economy B r = some c) ∧
    (∃ c ∈ B, normalize_name c = normalize_name r ∧ artist_mapping B r = some c) ∧
    (∃ c ∈ B, normalize_name c = normalize_name r ∧ region_map_latitude B r = some c) ∧
    (region_join_map B r).isSome := by
  obtain ⟨c, hc, hnorm, hget⟩ := dictGet_buildNormMap_of_mem hmem
  refine ⟨⟨c, hc, hnorm, ?_⟩, ⟨c, hc, hnorm, ?_⟩, ⟨c, hc, hnorm, ?_⟩, ?_⟩
  · unfold region_map_economy
    exact hget
  · simp only [artist_mapping, hget]
  · simp only [region_map_latitude, hget]
  · cases hov : dictGet overrides_climate (normalize_name r) with
    | none => simp [region_join_map, hov, hget]
    | some target =>
      cases houter : dictGet (buildNormMap B) (pyLower target) with
      | none => simp [region_join_map, hov, houter, hget]
      | some t =>
        cases hin : dictGet (buildNormMap B) (normalize_name target) with
        | none => simp [region_join_map, hov, houter, hin, hget]
        | some c2 => simp [region_join_map, hov, houter, hin]

/-- Witness for the amended C1 at a concrete table and raw key. -/
theorem C1_exact_match_resolution_witness :
    ∃ c ∈ ["United States"],
      normalize_name c = normalize_name " United STATES " ∧
      region_map_economy ["United States"] " United STATES " = some c :=
  (C1_exact_match_resolution ["United States"] " United STATES " (by decide)).1

/-! ### Claim C2 -/

/-- C2 counterexample: in `6-join_climate.py` the exact normalized lookup
of the raw key Korea succeeds, yet the resolution result is the override
target South Korea, so the override table is consulted (and wins) even for
raw values whose exact normalized lookup succeeds, refuting the claimed
fixed order with exact match first. -/
theorem C2_counterexample :
    dictGet (buildNormMap ["Korea", "South Korea"]) (normalize_name "Korea") = some "Korea" ∧
    region_join_map ["Korea", "South Korea"] "Korea" = some "South Korea" ∧
    region_join_map ["Korea", "South Korea"] "Korea" ≠
      dictGet (buildNormMap ["Korea", "South Korea"]) (normalize_name "Korea") := by decide

/-- C2 (amended): strategies are tried per raw value with the first success
winning, but the order is per join: the latitude join tries exact normalized
match first and the override table only on failure, the artist join tries
exact match first and the split fallback only on failure, the economy join
has only the exact match, while the climate join consults the override table
FIRST (its target, renormalized, wins whenever found) and falls back to the
exact normalized match otherwise. -/
theorem C2_strategy_order (B : List String) (r : String) :
    (∀ c, dictGet (buildNormMap B) (normalize_name r) = some c →
       region_map_latitude B r = some c ∧ artist_mapping B r = some c) ∧
    (dictGet (buildNormMap B) (normalize_name r) = none →
       region_map_latitude B r =
         (dictGet overrides_latitude (normalize_name r)).bind
           (fun target => dictGet (buildNormMap B) (normalize_name target)) ∧
       artist_mapping B r = dictGet (buildNormMap B) (primarySegment (normalize_name r))) ∧
    (∀ target c, dictGet overrides_climate (normalize_name r) = some target →
       dictGet (buildNormMap B) (normalize_name target) = some c →
       region_join_map B r = some c) ∧
    (dictGet overrides_climate (normalize_name r) = none →
       region_join_map B r = dictGet (buildNormMap B) (normalize_name r)) ∧
    region_map_economy B r = dictGet (buildNormMap B) (normalize_name r) := by
  refine ⟨?_, ?_, ?_, ?_, rfl⟩
  · intro c hc
    constructor
    · simp only [region_map_latitude, hc]
    · simp only [artist_mapping, hc]
  · intro hnone
    constructor
    · cases hov : dictGet overrides_latitude (normalize_name r) with
      | none => simp [region_map_latitude, hnone, hov]
      | some target => simp [region_map_latitude, hnone, hov]
    · simp only [artist_mapping, hnone]
  · intro target c h1 h2
    have hlow : pyLower target = normalize_name target := by
      obtain ⟨p, hp, _, hval⟩ := dictGet_eq_some_mem h1
      have := overrides_climate_lower_eq p hp
      rw [hval] at this
      exact this
    have houter : dictGet (buildNormMap B) (pyLower target) = some c := by
      rw [hlow]; exact h2
    simp [region_join_map, h1, houter, h2]
  · intro hov
    simp [region_join_map, hov]

/-- Witness for the amended C2: the climate join resolves a raw UK region
through the override path, and the latitude join resolves an exact match
directly. -/
theorem C2_strategy_order_witness :
    region_join_map ["United Kingdom"] "  UK " = some "United Kingdom" ∧
    region_map_latitude ["United Kingdom"] " united KINGDOM " = some "United Kingdom" :=
  ⟨(C2_strategy_order ["United Kingdom"] "  UK ").2.2.1 "United Kingdom" "United Kingdom"
      (by decide) (by decide),
   ((C2_strategy_order ["United Kingdom"] " united KINGDOM ").1 "United Kingdom" (by decide)).1⟩

/-! ### Claim C3 -/

/-- C3: when the exact normalized lookup of an artist string fails and the
first segment of the separator split is present in the reference table, the
artist resolver assigns the canonical entry of that first segment; the two
example composites split to their leading artist as the claim states. -/
theorem C3_composite_fallback (tbl : List String) (a c : String)
    (h1 : dictGet (buildNormMap tbl) (normalize_name a) = none)
    (h2 : dictGet (buildNormMap tbl) (primarySegment (normalize_name a)) = some c) :
    artist_mapping tbl a = some c ∧
    primarySegment (normalize_name "Drake, Rihanna") = "drake" ∧
    primarySegment (normalize_name "Coldplay feat. Rihanna") = "coldplay" := by
  refine ⟨?_, by decide, by decide⟩
  simp only [artist_mapping, h1, h2]

/-- Witness for C3: a concrete composite artist string resolved through the
split fallback. -/
theorem C3_composite_fallback_witness :
    artist_mapping ["Drake", "Rihanna"] "Drake, Rihanna" = some "Drake" :=
  (C3_composite_fallback ["Drake", "Rihanna"] "Drake, Rihanna" "Drake"
    (by decide) (by decide)).1

/-! ### Helper lemmas about the hemisphere corrector -/

theorem applySouthFix_country (r : GeoRow) : (applySouthFix r).country = r.country := by
  unfold applySouthFix
  split <;> rfl

theorem applySouthFix_longitude (r : GeoRow) : (applySouthFix r).longitude = r.longitude := by
  unfold applySouthFix
  split <;> rfl

theorem applyWestFix_country (r : GeoRow) : (applyWestFix r).country = r.country := by
  unfold applyWestFix
  split <;> rfl

theorem applyWestFix_latitude (r : GeoRow) : (applyWestFix r).latitude = r.latitude := by
  unfold applyWestFix
  split <;> rfl

theorem applySouthFix_idem (r : GeoRow) : applySouthFix (applySouthFix r) = applySouthFix r := by
  by_cases h : pyStrip r.country ∈ SOUTH_HEMISPHERE ∧ 0 < r.latitude
  · have h1 : applySouthFix r = { r with latitude := -|r.latitude| } := by
      unfold applySouthFix
      rw [if_pos h]
    rw [h1]
    unfold applySouthFix
    rw [if_neg (fun hc => absurd hc.2 (not_lt.2 (neg_nonpos.2 (abs_nonneg r.latitude))))]
  · have h1 : applySouthFix r = r := by
      unfold applySouthFix
      rw [if_neg h]
    rw [h1, h1]

theorem applyWestFix_idem (r : GeoRow) : applyWestFix (applyWestFix r) = applyWestFix r := by
  by_cases h : pyStrip r.country ∈ WEST_HEMISPHERE ∧ 0 < r.longitude
  · have h1 : applyWestFix r = { r with longitude := -|r.longitude| } := by
      unfold applyWestFix
      rw [if_pos h]
    rw [h1]
    unfold applyWestFix
    rw [if_neg (fun hc => absurd hc.2 (not_lt.2 (neg_nonpos.2 (abs_nonneg r.longitude))))]
  · have h1 : applyWestFix r = r := by
      unfold applyWestFix
      rw [if_neg h]
    rw [h1, h1]

theorem south_west_comm (r : GeoRow) :
    applyWestFix (applySouthFix r) = applySouthFix (applyWestFix r) := by
  cases r with
  | mk country latitude longitude te ue =>
    simp only [applySouthFix, applyWestFix]
    split_ifs <;> rfl

theorem correctRow_idem (r : GeoRow) : correctRow (correctRow r) = correctRow r := by
  unfold correctRow
  rw [← south_west_comm (applySouthFix r), applyWestFix_idem, applySouthFix_idem]

theorem correctRow_lat_neg (r : GeoRow)
    (hmem : pyStrip r.country ∈ SOUTH_HEMISPHERE) (hpos : 0 < r.latitude) :
    (correctRow r).latitude < 0 := by
  unfold correctRow
  rw [applyWestFix_latitude]
  unfold applySouthFix
  rw [if_pos ⟨hmem, hpos⟩]
  show -|r.latitude| < 0
  rw [abs_of_pos hpos]
  exact neg_neg_of_pos hpos

theorem correctRow_lon_neg (r : GeoRow)
    (hmem : pyStrip r.country ∈ WEST_HEMISPHERE) (hpos : 0 < r.longitude) :
    (correctRow r).longitude < 0 := by
  unfold correctRow
  have hc : pyStrip (applySouthFix r).country ∈ WEST_HEMISPHERE := by
    rw [applySouthFix_country]
    exact hmem
  have hl : 0 < (applySouthFix r).longitude := by
    rw [applySouthFix_longitude]
    exact hpos
  unfold applyWestFix
  rw [if_pos ⟨hc, hl⟩]
  show -|(applySouthFix r).longitude| < 0
  rw [applySouthFix_longitude, abs_of_pos hpos]
  exact neg_neg_of_pos hpos

theorem correctRow_untouched (r : GeoRow)
    (hs : pyStrip r.country ∉ SOUTH_HEMISPHERE) (hw : pyStrip r.country ∉ WEST_HEMISPHERE) :
    correctRow r = r := by
  unfold correctRow
  have h1 : applySouthFix r = r := by
    unfold applySouthFix
    rw [if_neg (fun hc => hs hc.1)]
  rw [h1]
  unfold applyWestFix
  rw [if_neg (fun hc => hw hc.1)]

/-! ### Claim C4 -/

/-- C4: the hemisphere sign corrector is idempotent; after one application
every listed Southern-Hemisphere country with positive stored latitude has
negative latitude (and listed Western-Hemisphere countries negative
longitude); rows of countries in neither membership set are unchanged. -/
theorem C4_hemisphere_corrector (r : GeoRow) :
    correctRow (correctRow r) = correctRow r ∧
    (pyStrip r.country ∈ SOUTH_HEMISPHERE → 0 < r.latitude → (correctRow r).latitude < 0) ∧
    (pyStrip r.country ∈ WEST_HEMISPHERE → 0 < r.longitude → (correctRow r).longitude < 0) ∧
    (pyStrip r.country ∉ SOUTH_HEMISPHERE → pyStrip r.country ∉ WEST_HEMISPHERE →
      correctRow r = r) :=
  ⟨correctRow_idem r, correctRow_lat_neg r, correctRow_lon_neg r, correctRow_untouched r⟩

/-- Witness for C4 at a concrete Southern-Hemisphere row. -/
theorem C4_hemisphere_corrector_witness :
    (correctRow (GeoRow.mk "Australia" 25 133 0 0)).latitude < 0 ∧
    correctRow (correctRow (GeoRow.mk "Australia" 25 133 0 0)) =
      correctRow (GeoRow.mk "Australia" 25 133 0 0) :=
  ⟨(C4_hemisphere_corrector (GeoRow.mk "Australia" 25 133 0 0)).2.1 (by decide) (by decide),
   (C4_hemisphere_corrector (GeoRow.mk "Australia" 25 133 0 0)).1⟩

/-! ### Claim C10 -/

/-- C10: the geographic profile output always ends with the manually
injected Hong Kong row carrying the literal source values; it is appended
after the correction pass (which maps only over the input rows), so it is
never subject to sign correction — and indeed even a correction pass would
leave it unchanged, since Hong Kong is in neither membership set. -/
theorem C10_hong_kong_row (rows : List GeoRow) :
    processLatitudeRows rows = rows.map correctRow ++ [hk_data] ∧
    (processLatitudeRows rows).getLast? = some hk_data ∧
    hk_data.country = "Hong Kong" ∧
    hk_data.latitude = 223193 / 10000 ∧
    hk_data.longitude = 1141694 / 10000 ∧
    hk_data.tertiary_enrollment = 848 / 10 ∧
    hk_data.unemployment_rate = 411 / 100 ∧
    correctRow hk_data = hk_data := by
  refine ⟨rfl, ?_, rfl, by norm_num [hk_data], by norm_num [hk_data], by norm_num [hk_data],
    by norm_num [hk_data], correctRow_untouched hk_data (by decide) (by decide)⟩
  unfold processLatitudeRows
  simp

/-! ### Claim C5 -/

/-- C5: the rare-class filter keeps each row exactly when its label reaches
the threshold in the pre-filter distribution, every retained label has
pre-filter frequency at least the threshold, and the post-filter row count
equals the sum of the pre-filter frequencies of the retained labels. -/
theorem C5_rare_class_filter (labels : List String) (T : Nat) :
    (∀ g, (filter_rare_genres labels T).count g =
      if T ≤ labels.count g then labels.count g else 0) ∧
    (∀ g ∈ valid_genres labels T, T ≤ labels.count g) ∧
    (filter_rare_genres labels T).length =
      ((valid_genres labels T).map (fun g => labels.count g)).sum := by
  refine ⟨?_, ?_, ?_⟩
  · intro g
    by_cases h : T ≤ labels.count g
    · rw [if_pos h]
      exact List.count_filter (by simpa using h)
    · rw [if_neg h]
      rw [List.count_eq_zero]
      intro hg
      exact h (by simpa using (List.mem_filter.1 hg).2)
  · intro g hg
    simpa using (List.mem_filter.1 hg).2
  · unfold filter_rare_genres valid_genres
    rw [← List.countP_eq_length_filter]
    exact (List.sum_map_count_dedup_filter_eq_countP _ labels).symm

/-- Witness for C5 at a concrete label column and threshold. -/
theorem C5_rare_class_filter_witness :
    ((filter_rare_genres ["pop", "pop", "rock"] 2).count "pop" =
      if 2 ≤ (["pop", "pop", "rock"].count "pop") then ["pop", "pop", "rock"].count "pop" else 0) ∧
    2 ≤ ["pop", "pop", "rock"].count "pop" ∧
    (filter_rare_genres ["pop", "pop", "rock"] 2).length =
      ((valid_genres ["pop", "pop", "rock"] 2).map
        (fun g => ["pop", "pop", "rock"].count g)).sum :=
  ⟨(C5_rare_class_filter ["pop", "pop", "rock"] 2).1 "pop",
   (C5_rare_class_filter ["pop", "pop", "rock"] 2).2.1 "pop" (by decide),
   (C5_rare_class_filter ["pop", "pop", "rock"] 2).2.2⟩

/-! ### Claim C6 -/

/-- C6: the primary-genre extractor returns the first element whenever the
field parses as a non-empty literal list, and returns the whole field
trimmed whenever structural parsing fails. -/
theorem C6_primary_genre (literalEval : String → Option PyVal) (s : String) :
    (∀ x xs, literalEval s = some (PyVal.list (x :: xs)) →
      extract_primary_genre literalEval s = x) ∧
    (literalEval s = none → extract_primary_genre literalEval s = PyVal.str (pyStrip s)) := by
  constructor
  · intro x xs h
    simp only [extract_primary_genre, h]
  · intro h
    simp only [extract_primary_genre, h]

/-- Witness for C6: the two example fields of the claim, evaluated with the
executable list-literal parser. -/
theorem C6_primary_genre_witness :
    extract_primary_genre parseListLiteral "['pop', 'rock']" = PyVal.str "pop" ∧
    extract_primary_genre parseListLiteral "rock" = PyVal.str "rock" :=
  ⟨(C6_primary_genre parseListLiteral "['pop', 'rock']").1
      (PyVal.str "pop") [PyVal.str "rock"] rfl,
   (C6_primary_genre parseListLiteral "rock").2 rfl⟩

/-! ### Helper lemmas about the left join -/

theorem filter_key_singleton {β : Type} {B : List β} {bkey : β → String}
    (hB : (B.map bkey).Nodup) (k : String) :
    (B.filter (fun b => bkey b == k)).length ≤ 1 := by
  induction B with
  | nil => simp
  | cons b rest ih =>
    rw [List.map_cons, List.nodup_cons] at hB
    by_cases h : bkey b = k
    · have hrest : rest.filter (fun x => bkey x == k) = [] := by
        rw [List.filter_eq_nil_iff]
        intro x hx
        simp only [beq_iff_eq]
        intro hxk
        exact hB.1 (List.mem_map.2 ⟨x, hx, hxk.trans h.symm⟩)
      rw [List.filter_cons_of_pos (by simpa using h), hrest]
      simp
    · rw [List.filter_cons_of_neg (by simpa using h)]
      exact ih hB.2

theorem leftJoin_single_map_fst {α β : Type} (a : α) (key : α → Option String)
    (B : List β) (bkey : β → String) (hB : (B.map bkey).Nodup) :
    (leftJoin [a] key B bkey).map Prod.fst = [a] := by
  unfold leftJoin
  rw [List.flatMap_cons, List.flatMap_nil, List.append_nil]
  cases hk : key a with
  | none => rfl
  | some k =>
    cases hf : B.filter (fun b => bkey b == k) with
    | nil => simp [hf]
    | cons b rest =>
      have hlen := filter_key_singleton hB k
      rw [hf] at hlen
      have h0 : rest = [] :=
        List.length_eq_zero.1 (Nat.le_zero.1 (Nat.le_of_succ_le_succ (by simpa using hlen)))
      subst h0
      simp [hf]

theorem leftJoin_append {α β : Type} (A₁ A₂ : List α) (key : α → Option String)
    (B : List β) (bkey : β → String) :
    leftJoin (A₁ ++ A₂) key B bkey = leftJoin A₁ key B bkey ++ leftJoin A₂ key B bkey := by
  unfold leftJoin
  rw [List.flatMap_append]

theorem leftJoin_map_fst {α β : Type} (A : List α) (key : α → Option String)
    (B : List β) (bkey : β → String) (hB : (B.map bkey).Nodup) :
    (leftJoin A key B bkey).map Prod.fst = A := by
  induction A with
  | nil => rfl
  | cons a A ih =>
    have hsplit : leftJoin (a :: A) key B bkey =
        leftJoin [a] key B bkey ++ leftJoin A key B bkey := by
      simpa using leftJoin_append [a] A key B bkey
    rw [hsplit, List.map_append, ih, leftJoin_single_map_fst a key B bkey hB]
    rfl

theorem leftJoin_unmatched {α β : Type} (A : List α) (key : α → Option String)
    (B : List β) (bkey : β → String) {a : α} (ha : a ∈ A)
    (hnm : ∀ b ∈ B, key a ≠ some (bkey b)) :
    (a, (none : Option β)) ∈ leftJoin A key B bkey := by
  unfold leftJoin
  rw [List.mem_flatMap]
  refine ⟨a, ha, ?_⟩
  cases hk : key a with
  | none => simp
  | some k =>
    have hf : B.filter (fun b => bkey b == k) = [] := by
      rw [List.filter_eq_nil_iff]
      intro b hb
      simp only [beq_iff_eq]
      intro hbk
      exact hnm b hb (by rw [hk, hbk])
    simp [hf]

theorem leftJoin_chunked {α β : Type} (chunks : List (List α)) (key : α → Option String)
    (B : List β) (bkey : β → String) :
    (chunks.map (fun c => leftJoin c key B bkey)).flatten =
      leftJoin chunks.flatten key B bkey := by
  induction chunks with
  | nil => rfl
  | cons c cs ih =>
    rw [List.map_cons, List.flatten_cons, ih, List.flatten_cons, leftJoin_append]

theorem map_chunked {α : Type} (chunks : List (List α)) (proj : α → List String) :
    (chunks.map (fun c => c.map proj)).flatten = chunks.flatten.map proj := by
  induction chunks with
  | nil => rfl
  | cons c cs ih =>
    rw [List.map_cons, List.flatten_cons, ih, List.flatten_cons, List.map_append]

/-! ### Claim C7 -/

/-- C7: with a reference table whose join keys are duplicate-free (as the
grouped genre, climate and mapping tables are), the left join keeps every
left row exactly once and in order (its first components read back exactly
as dataset A), and a row whose key matches no reference key appears paired
with null right columns. -/
theorem C7_left_join_outer_preserving {α β : Type} (A : List α) (key : α → Option String)
    (B : List β) (bkey : β → String) (hB : (B.map bkey).Nodup) :
    (leftJoin A key B bkey).map Prod.fst = A ∧
    ∀ a ∈ A, (∀ b ∈ B, key a ≠ some (bkey b)) →
      (a, (none : Option β)) ∈ leftJoin A key B bkey :=
  ⟨leftJoin_map_fst A key B bkey hB,
   fun _ ha hnm => leftJoin_unmatched A key B bkey ha hnm⟩

/-- Witness for C7 at a concrete two-row dataset, one matched and one
unmatched key. -/
theorem C7_left_join_outer_preserving_witness :
    (leftJoin [10, 20] (fun n => if n = 10 then some "us" else none)
        [("us", 5)] (fun p => p.1)).map Prod.fst = [10, 20] ∧
    ((20 : Nat), (none : Option (String × Nat))) ∈
      leftJoin [10, 20] (fun n => if n = 10 then some "us" else none)
        [("us", 5)] (fun p => p.1) :=
  ⟨(C7_left_join_outer_preserving [10, 20] (fun n => if n = 10 then some "us" else none)
      [("us", 5)] (fun p => p.1) (by decide)).1,
   (C7_left_join_outer_preserving [10, 20] (fun n => if n = 10 then some "us" else none)
      [("us", 5)] (fun p => p.1) (by decide)).2 20 (by decide) (by decide)⟩

/-! ### Claim C8 -/

/-- C8: chunked streaming is equivalent to one-shot processing — for every
partition of the dataset into chunks, joining (or projecting) chunk by
chunk and appending, header written once, yields exactly the file of the
single-pass join (or projection); the mapping and reference table are built
once and are chunk-independent by construction. -/
theorem C8_chunked_equivalence {α β : Type} (chunks : List (List α))
    (key : α → Option String) (B : List β) (bkey : β → String)
    (header : List String) (proj : α → List String) :
    chunkedFile header (chunks.map (fun c => leftJoin c key B bkey)) =
      oneShotFile header (leftJoin chunks.flatten key B bkey) ∧
    chunkedFile header (chunks.map (fun c => c.map proj)) =
      oneShotFile header (chunks.flatten.map proj) := by
  unfold chunkedFile oneShotFile
  rw [leftJoin_chunked, map_chunked]
  exact ⟨rfl, rfl⟩

/-! ### Claim C9 -/

/-- C9 counterexample: stage 3 (`3-join_datasets.py`) raises an uncaught
FileNotFoundError when its regions input is missing, so the exception
propagates to the shell instead of a conventional diagnostic-and-stop,
refuting the claim for that stage. -/
theorem C9_counterexample :
    stage3Startup false true = StageOutcome.uncaught "FileNotFoundError" ∧
    isConventionalStop (stage3Startup false true) = false := by decide

/-- C9 (amended): stages 11 and 13 print a diagnostic and stop
conventionally on a missing input, but stage 3 raises an uncaught
FileNotFoundError that propagates to the shell; exceptions raised inside
the guarded chunked loops are caught and printed, ending the stage
conventionally; with inputs present all three stages proceed. -/
theorem C9_exit_behavior :
    isConventionalStop (stage11Startup false) = true ∧
    isConventionalStop (stage13Startup false) = true ∧
    stage3Startup false true = StageOutcome.uncaught "FileNotFoundError" ∧
    stage3Startup true false = StageOutcome.uncaught "FileNotFoundError" ∧
    (∀ e : String,
      guardedChunkLoop (Except.error e : Except String Unit) = StageOutcome.cleanStop e) ∧
    stage3Startup true true = StageOutcome.proceed ∧
    stage11Startup true = StageOutcome.proceed ∧
    stage13Startup true = StageOutcome.proceed :=
  ⟨rfl, rfl, rfl, rfl, fun _ => rfl, rfl, rfl, rfl⟩

end WeatherChart
